import Mathlib

/-!
Verification of the FlatBuffers binary-format core against its
natural-language specification.

The repository sources available are the Java code generator
(`src/idl_gen_java.cpp`), the generated C++ test header
(`tests/monster_test_generated.h`) and the FBS schema printer.  The
binary-format core (`FlatBufferBuilder`, `Table`, `Verifier` from
`flatbuffers/flatbuffers.h`) is not among them, so those operations are
modelled from the specification; the generated header and the generator
are embedded directly from the source.

Conventions of the shallow embedding:
* a buffer is a `List Nat` of bytes (each value interpreted mod 256),
  index `0` being the lowest address;
* the builder grows the buffer downwards, i.e. writes prepend to the
  front of the list; an `Offset` value is the distance from the *end*
  of the buffer to the start of the referenced object, so an object at
  offset `o` in a finished buffer `b` starts at absolute index
  `b.length - o`;
* machine integers are `Nat` bit patterns (two's complement for the
  signed views), decoded explicitly where a signed read matters.
-/

/-- Read one byte of a buffer (out-of-range reads give `0`, values are
normalised mod 256). -/
def readByte (buf : List Nat) (i : Nat) : Nat := buf.getD i 0 % 256

/-- Little-endian read of `w` bytes starting at index `i`. -/
def readLE (buf : List Nat) (i : Nat) : Nat → Nat
  | 0 => 0
  | w + 1 => readByte buf i + 256 * readLE buf (i + 1) w

/-- Little-endian byte encoding of `v` in `w` bytes (truncating). -/
def bytesLE : Nat → Nat → List Nat
  | 0, _ => []
  | w + 1, v => v % 256 :: bytesLE w (v / 256)

/-- Overwrite the bytes of `buf` starting at index `i` with `bs`. -/
def writeBytes (buf : List Nat) (i : Nat) (bs : List Nat) : List Nat :=
  buf.take i ++ bs ++ buf.drop (i + bs.length)

/-- Number of padding bytes needed to grow a buffer of length `len` to a
multiple of `align` (the `PaddingBytes` computation of the builder). -/
def paddingBytes (len align : Nat) : Nat := (align - len % align) % align

/-- Round `n` up to a multiple of `align`. -/
def roundUp (n align : Nat) : Nat := n + paddingBytes n align

/-- Signed 32-bit (little-endian) read, decoding two's complement. -/
def readI32 (buf : List Nat) (i : Nat) : Int :=
  let u := readLE buf i 4
  if u < 2 ^ 31 then (u : Int) else (u : Int) - 2 ^ 32

/-- Decode a 16-bit pattern as a signed `int16_t` value. -/
def decodeI16 (u : Nat) : Int :=
  if u < 2 ^ 15 then (u : Int) else (u : Int) - 2 ^ 16

/-- Modelled from the spec: the state of `flatbuffers::FlatBufferBuilder`
(missing from the provided sources): the downward-growing byte buffer,
the maximum alignment seen so far, the field locations recorded between
`StartTable` and `EndTable` as pairs of (vtable byte offset, buffer
offset of the written field), and the buffer offsets of the vtables
emitted so far (for deduplication). -/
structure Builder where
  buf : List Nat
  minalign : Nat
  fieldLocs : List (Nat × Nat)
  vtables : List Nat
deriving Repr, DecidableEq

/-- Modelled from the spec: a freshly constructed builder. -/
def initBuilder : Builder := ⟨[], 1, [], []⟩

/-- Modelled from the spec: append `n` zero padding bytes (towards lower
addresses). -/
def fill (st : Builder) (n : Nat) : Builder :=
  { st with buf := List.replicate n 0 ++ st.buf }

/-- Modelled from the spec: pad the write cursor so the next object
starts on a multiple of `a`, tracking the maximum alignment seen. -/
def alignTo (st : Builder) (a : Nat) : Builder :=
  let st1 := { st with minalign := max st.minalign a }
  fill st1 (paddingBytes st1.buf.length a)

/-- Modelled from the spec: pad so that after `len` further bytes the
buffer length is a multiple of `a` (the builder's `PreAlign`). -/
def preAlign (st : Builder) (len a : Nat) : Builder :=
  fill st (paddingBytes (st.buf.length + len) a)

/-- Modelled from the spec: write raw bytes at the cursor. -/
def pushBytes (st : Builder) (bs : List Nat) : Builder :=
  { st with buf := bs ++ st.buf }

/-- Modelled from the spec: align for and write one scalar of width `w`
with bit pattern `v` (the builder's `PushElement`). -/
def pushElement (st : Builder) (w v : Nat) : Builder :=
  pushBytes (alignTo st w) (bytesLE w v)

/-- Modelled from the spec: record that the field with vtable byte
offset `id` was written at the current buffer offset. -/
def trackField (st : Builder) (id : Nat) : Builder :=
  { st with fieldLocs := (id, st.buf.length) :: st.fieldLocs }

/-- Modelled from the spec: `AddElement` - write a scalar table field,
but only when its value differs from the field's declared default;
otherwise write nothing and record no vtable slot. -/
def addElement (st : Builder) (id w v d : Nat) : Builder :=
  if v = d then st else trackField (pushElement st w v) id

/-- Modelled from the spec: `AddOffset` - write a 32-bit relative offset
to the object at buffer offset `off` (0 meaning absent, in which case
nothing is written).  The stored value is relative to the location of
the offset field itself. -/
def addOffset (st : Builder) (id off : Nat) : Builder :=
  if off = 0 then st
  else
    let st1 := alignTo st 4
    trackField (pushBytes st1 (bytesLE 4 (st1.buf.length - off + 4))) id

/-- Modelled from the spec: `AddStruct` - write a fixed struct inline at
its alignment (`none` meaning a null struct pointer: nothing written). -/
def addStruct (st : Builder) (id a : Nat) : Option (List Nat) → Builder
  | none => st
  | some bs => trackField (pushBytes (alignTo st a) bs) id

/-- Modelled from the spec: `StartTable` - begin a table, remembering
the buffer offset at which its fields start. -/
def startTable (st : Builder) : Builder × Nat :=
  ({ st with fieldLocs := [] }, st.buf.length)

/-- Modelled from the spec: the candidate vtable slot entries for a
table with `n` declared fields ending at buffer offset `tablePos`:
entry `i` (for vtable byte offset `2*i + 4`) is the byte offset of the
recorded field within the table, or `0` when the slot is absent. -/
def slotEntries (locs : List (Nat × Nat)) (tablePos n : Nat) : List Nat :=
  (List.range n).map fun i =>
    match locs.find? (fun p => p.1 = 2 * i + 4) with
    | some p => tablePos - p.2
    | none => 0

/-- Trailing all-absent vtable slots are trimmed from the emitted
vtable. -/
def trimTrailingZeros (l : List Nat) : List Nat :=
  (l.reverse.dropWhile (· = 0)).reverse

/-- Bytes of the already-emitted vtable recorded at buffer offset
`voff` (its first `uint16` is its own byte size). -/
def vtableBytesAt (buf : List Nat) (voff : Nat) : List Nat :=
  let p := buf.length - voff
  (List.range (readLE buf p 2)).map fun i => readByte buf (p + i)

/-- Encoding of the signed 32-bit vtable offset `a - b` as a `uint32`
two's-complement byte pattern. -/
def soffsetBytes (a b : Nat) : List Nat :=
  bytesLE 4 ((((a : Int) - (b : Int)).emod (2 ^ 32)).toNat)

/-- Modelled from the spec: `EndTable` - finish a table of `n` declared
fields started at buffer offset `start`: push a placeholder for the
signed vtable offset, build the candidate vtable (its own byte size,
the table's byte size, then the slot entries with trailing zeros
trimmed), reuse a previously emitted byte-identical vtable when one
exists (deduplication) or emit the new one, and patch the placeholder
with the signed offset from the table to its vtable.  Returns the
table's buffer offset. -/
def endTable (st : Builder) (start n : Nat) : Builder × Nat :=
  let st1 := pushElement st 4 0
  let tablePos := st1.buf.length
  let entries := trimTrailingZeros (slotEntries st1.fieldLocs tablePos n)
  let vtbytes := bytesLE 2 (2 * entries.length + 4) ++
    bytesLE 2 (tablePos - start) ++ (entries.map (bytesLE 2)).flatten
  match st1.vtables.find? (fun voff => vtableBytesAt st1.buf voff = vtbytes) with
  | some vtUse =>
    ({ st1 with
        buf := writeBytes st1.buf (st1.buf.length - tablePos) (soffsetBytes vtUse tablePos)
        fieldLocs := [] }, tablePos)
  | none =>
    let st2 := pushBytes (alignTo st1 2) vtbytes
    let vtUse := st2.buf.length
    ({ st2 with
        buf := writeBytes st2.buf (st2.buf.length - tablePos) (soffsetBytes vtUse tablePos)
        vtables := vtUse :: st2.vtables
        fieldLocs := [] }, tablePos)

/-- Modelled from the spec: `CreateString` - write a length-prefixed,
zero-terminated byte string (the terminator not counted in the length),
pre-aligned so the `uint32` length prefix is 4-byte aligned.  Returns
the string's buffer offset. -/
def createString (st : Builder) (s : List Nat) : Builder × Nat :=
  let st1 := preAlign st (s.length + 1) 4
  let st2 := pushElement (pushBytes st1 (s ++ [0])) 4 s.length
  (st2, st2.buf.length)

/-- Modelled from the spec: `StartVector` - pre-align so that both the
`uint32` length prefix and the `n * w` element bytes land aligned (`a`
is the element alignment). -/
def startVector (st : Builder) (w n a : Nat) : Builder :=
  preAlign (preAlign st (n * w) 4) (n * w) a

/-- Modelled from the spec: `EndVector` - write the `uint32` element
count and return the vector's buffer offset. -/
def endVector (st : Builder) (n : Nat) : Builder × Nat :=
  let st1 := pushElement st 4 n
  (st1, st1.buf.length)

/-- Embeds the generated `create<Field>Vector` helper emitted by
`GenStruct` in `idl_gen_java.cpp`: start a vector, then push the input
elements from the LAST index down to index 0 into the downward-growing
buffer, then end the vector. -/
def createScalarVector (st : Builder) (w a : Nat) (data : List Nat) : Builder × Nat :=
  let st1 := startVector st w data.length a
  let st2 := data.reverse.foldl (fun s v => pushElement s w v) st1
  endVector st2 data.length

/-- Modelled from the spec: `Finish` - pad the buffer to the builder's
accumulated maximum alignment (accounting for the root offset and the
optional 4-byte file identifier), write the identifier when present,
and write the root offset at the very start of the buffer. -/
def finishBuffer (st : Builder) (root : Nat) (ident : Option (List Nat)) : Builder :=
  let ilen : Nat := match ident with | some _ => 4 | none => 0
  let st1 := preAlign st (4 + ilen) st.minalign
  let st2 := match ident with | some b => pushBytes st1 b | none => st1
  let st3 := alignTo st2 4
  pushBytes st3 (bytesLE 4 (st3.buf.length - root + 4))

/-- Modelled from the spec: the accessor-protocol vtable resolution:
the vtable of the table at absolute position `t` starts at
`t - soffset` where `soffset` is the signed 32-bit value stored at `t`. -/
def vtableAt (buf : List Nat) (t : Nat) : Nat :=
  ((t : Int) - readI32 buf t).toNat

/-- Modelled from the spec: `GetOptionalFieldOffset` - look up vtable
byte offset `vo` for the table at absolute position `t`: `0` (absent)
when the slot lies at or beyond the vtable's declared byte length,
otherwise the stored `uint16` field offset (which may itself be `0`,
meaning absent). -/
def fieldOffset (buf : List Nat) (t vo : Nat) : Nat :=
  if vo < readLE buf (vtableAt buf t) 2 then readLE buf (vtableAt buf t + vo) 2 else 0

/-- Modelled from the spec: `GetField` - read a scalar table field of
width `w`, falling back to the declared default `d` when the field is
absent. -/
def getField (buf : List Nat) (t vo w d : Nat) : Nat :=
  if fieldOffset buf t vo = 0 then d else readLE buf (t + fieldOffset buf t vo) w

/-- Modelled from the spec: `GetPointer` - resolve a pointer-typed table
field: `none` when absent, otherwise the absolute position obtained by
adding the stored `uint32` to the position of the offset field itself. -/
def getPointer (buf : List Nat) (t vo : Nat) : Option Nat :=
  if fieldOffset buf t vo = 0 then none
  else some (t + fieldOffset buf t vo + readLE buf (t + fieldOffset buf t vo) 4)

/-- Modelled from the spec: `Required` - check, on the just-built table
at buffer offset `tableOff`, that the field with vtable byte offset
`vo` was written (used by the generated table `Finish` methods for
fields declared `required`). -/
def requiredOk (st : Builder) (tableOff vo : Nat) : Bool :=
  fieldOffset st.buf (st.buf.length - tableOff) vo != 0

/-- Modelled from the spec: `SetField` - mutate a scalar table field in
place; returns `false` (leaving the buffer untouched) when the field is
absent from the instance's vtable. -/
def setField (buf : List Nat) (t vo w v : Nat) : Bool × List Nat :=
  if fieldOffset buf t vo = 0 then (false, buf)
  else (true, writeBytes buf (t + fieldOffset buf t vo) (bytesLE w v))

/-- Modelled from the spec: `GetRoot` - the root table's absolute
position: the `uint32` stored at position 0 plus the position (0) of
the offset field itself. -/
def getRoot (buf : List Nat) : Nat := readLE buf 0 4 + 0

/-- Read back a serialized string (length-prefixed bytes) at absolute
position `p`. -/
def readString (buf : List Nat) (p : Nat) : List Nat :=
  (List.range (readLE buf p 4)).map fun i => readByte buf (p + 4 + i)

/-- Read element `i` of a serialized vector of `w`-byte scalars at
absolute position `p` (the generated element accessor computes
`__vector(o) + j * size`, i.e. skips the 4-byte length). -/
def vectorElem (buf : List Nat) (p w i : Nat) : Nat :=
  readLE buf (p + 4 + i * w) w

/-- Read the `uint32` length prefix of a serialized vector. -/
def vectorLen (buf : List Nat) (p : Nat) : Nat := readLE buf p 4

/-- Modelled from the spec: `BufferHasIdentifier` - compare the 4 bytes
immediately after the root offset with the schema-declared 4-byte
identifier (the comparison unrolled byte by byte). -/
def bufferHasIdentifier (buf ident : List Nat) : Bool :=
  (readByte buf 4 == ident.getD 0 0) && (readByte buf 5 == ident.getD 1 0) &&
  (readByte buf 6 == ident.getD 2 0) && (readByte buf 7 == ident.getD 3 0)

/-! ### The generated Monster test schema (`tests/monster_test_generated.h`) -/

/-- Embeds `Monster::mana` from the generated header:
`GetField<int16_t>(6, 150)`, decoded as a signed 16-bit value. -/
def Monster.mana (buf : List Nat) (t : Nat) : Int :=
  decodeI16 (getField buf t 6 2 150)

/-- Embeds `Monster::hp` from the generated header:
`GetField<int16_t>(8, 100)`. -/
def Monster.hp (buf : List Nat) (t : Nat) : Int :=
  decodeI16 (getField buf t 8 2 100)

/-- Embeds `Monster::name` from the generated header:
`GetPointer<const flatbuffers::String *>(10)`, here resolved all the
way to the string's bytes (`none` when the field is absent). -/
def Monster.name (buf : List Nat) (t : Nat) : Option (List Nat) :=
  (getPointer buf t 10).map (readString buf)

/-- Embeds `Monster::mutate_mana` (`SetField(6, mana)`); the value is
passed as a 16-bit two's-complement pattern. -/
def Monster.mutateMana (buf : List Nat) (t v : Nat) : Bool × List Nat :=
  setField buf t 6 2 v

/-- Embeds `Monster::mutate_hp` (`SetField(8, hp)`). -/
def Monster.mutateHp (buf : List Nat) (t v : Nat) : Bool × List Nat :=
  setField buf t 8 2 v

/-- Embeds `MonsterBuilder::Finish` from the generated header:
`EndTable(start_, 25)` followed by the `Required(o, 10)` check on the
`name` slot; a missing required field is a fatal builder-usage error,
modelled as `Except.error`. -/
def monsterFinish (st : Builder) (start : Nat) : Except String (Builder × Nat) :=
  let r := endTable st start 25
  if requiredOk r.1 r.2 10 then .ok r else .error "required field name is not set"

/-- Embeds `CreateMonster` from the generated header: arguments in the
declared order (`pos`, `mana`, `hp`, `name`, `inventory`, `color`,
`test_type`, `test`, `test4`, `testarrayofstring`,
`testarrayoftables`, `enemy`, `testnestedflatbuffer`, `testempty`,
`testbool`, the eight hash fields, `testarrayofbools`), with the
`add_*` calls performed in exactly the order of the C++ body.  Scalar
arguments are bit patterns; offset arguments are buffer offsets with
`0` meaning absent; `pos` is an optional 32-byte inline struct. -/
def createMonster (st : Builder)
    (pos : Option (List Nat)) (mana hp nameOff inventory color testType
     test test4 testarrayofstring testarrayoftables enemy
     testnestedflatbuffer testempty testbool
     hs32f1 hu32f1 hs64f1 hu64f1 hs32f1a hu32f1a hs64f1a hu64f1a
     testarrayofbools : Nat) : Except String (Builder × Nat) :=
  let p := startTable st
  let st := p.1
  let start := p.2
  let st := addElement st 50 8 hu64f1a 0
  let st := addElement st 48 8 hs64f1a 0
  let st := addElement st 42 8 hu64f1 0
  let st := addElement st 40 8 hs64f1 0
  let st := addOffset st 52 testarrayofbools
  let st := addElement st 46 4 hu32f1a 0
  let st := addElement st 44 4 hs32f1a 0
  let st := addElement st 38 4 hu32f1 0
  let st := addElement st 36 4 hs32f1 0
  let st := addOffset st 32 testempty
  let st := addOffset st 30 testnestedflatbuffer
  let st := addOffset st 28 enemy
  let st := addOffset st 26 testarrayoftables
  let st := addOffset st 24 testarrayofstring
  let st := addOffset st 22 test4
  let st := addOffset st 20 test
  let st := addOffset st 14 inventory
  let st := addOffset st 10 nameOff
  let st := addStruct st 4 16 pos
  let st := addElement st 8 2 hp 100
  let st := addElement st 6 2 mana 150
  let st := addElement st 34 1 testbool 0
  let st := addElement st 18 1 testType 0
  let st := addElement st 16 1 color 8
  monsterFinish st start

/-- Embeds `MonsterIdentifier()` (`"MONS"`) as ASCII bytes. -/
def monsterIdentifier : List Nat := [77, 79, 78, 83]

/-- Embeds `FinishMonsterBuffer`: `fbb.Finish(root, MonsterIdentifier())`. -/
def finishMonsterBuffer (st : Builder) (root : Nat) : Builder :=
  finishBuffer st root (some monsterIdentifier)

/-- Embeds the `Any` union discriminants of the generated header
(`Any_NONE = 0`, `Any_Monster = 1`, `Any_TestSimpleTableWithEnum = 2`). -/
def anyNONE : Nat := 0

/-- `Any_Monster` discriminant value. -/
def anyMonster : Nat := 1

/-- `Any_TestSimpleTableWithEnum` discriminant value. -/
def anyTestSimpleTableWithEnum : Nat := 2

/-- Embeds `VerifyAny` from the generated header.  The two referenced
table verifications (`verifier.VerifyTable(...)`, whose implementation
lives in the missing core header) are abstracted as the boolean-valued
parameters `vMonster` and `vSimple` applied to the union object
pointer. -/
def verifyAny {α : Type} (vMonster vSimple : α → Bool) (unionObj : α)
    (t : Nat) : Bool :=
  if t = anyNONE then true
  else if t = anyMonster then vMonster unionObj
  else if t = anyTestSimpleTableWithEnum then vSimple unionObj
  else false

/-! ### Fixed-struct layout (spec 4.1) and the generated struct constants -/

/-- Size and alignment of one fixed-struct field, as resolved by the
layout compiler. -/
structure FieldSpec where
  size : Nat
  align : Nat
deriving Repr, DecidableEq

/-- Modelled from the spec: the fixed-struct layout algorithm of the
layout compiler (part of the schema parser, missing from the provided
sources): fields are laid out in declaration order, with padding
inserted before each field so that its byte offset is a multiple of
its alignment. -/
def layoutOffsetsFrom : Nat → List FieldSpec → List Nat
  | _, [] => []
  | cur, f :: rest =>
    let o := roundUp cur f.align
    o :: layoutOffsetsFrom (o + f.size) rest

/-- Field byte offsets of a fixed struct laid out from offset 0. -/
def layoutOffsets (fs : List FieldSpec) : List Nat := layoutOffsetsFrom 0 fs

/-- End of the last field of the layout (sum of field sizes and
inter-field padding). -/
def layoutEnd : Nat → List FieldSpec → Nat
  | cur, [] => cur
  | cur, f :: rest => layoutEnd (roundUp cur f.align + f.size) rest

/-- The maximum field alignment of a field list. -/
def maxFieldAlign (fs : List FieldSpec) : Nat :=
  fs.foldl (fun m f => max m f.align) 1

/-- Modelled from the spec: a fixed struct's own alignment; `forced`
is the schema-level forced alignment (1 when the schema declares
none). -/
def structAlignment (forced : Nat) (fs : List FieldSpec) : Nat :=
  max forced (maxFieldAlign fs)

/-- Modelled from the spec: a fixed struct's total byte size: the sum
of field sizes and padding, rounded up to the struct's alignment. -/
def structByteSize (align : Nat) (fs : List FieldSpec) : Nat :=
  roundUp (layoutEnd 0 fs) align

/-- Field list of the generated `Test` struct (`int16_t a_`,
`int8_t b_`). -/
def testFieldSpecs : List FieldSpec := [⟨2, 2⟩, ⟨1, 1⟩]

/-- Embeds `MANUALLY_ALIGNED_STRUCT(2) Test`: alignment 2. -/
def testStructAlignment : Nat := 2

/-- Embeds `STRUCT_END(Test, 4)`: byte size 4. -/
def testStructByteSize : Nat := 4

/-- Member byte offsets of the generated `Test` struct (`a_` at 0,
`b_` at 2, one trailing padding byte). -/
def testStructOffsets : List Nat := [0, 2]

/-- Field list of the generated `Vec3` struct: `float x_, y_, z_`,
`double test1_`, `int8_t test2_`, `Test test3_` (size 4, alignment 2). -/
def vec3FieldSpecs : List FieldSpec :=
  [⟨4, 4⟩, ⟨4, 4⟩, ⟨4, 4⟩, ⟨8, 8⟩, ⟨1, 1⟩, ⟨4, 2⟩]

/-- Embeds `MANUALLY_ALIGNED_STRUCT(16) Vec3`: alignment 16. -/
def vec3StructAlignment : Nat := 16

/-- Embeds `STRUCT_END(Vec3, 32)`: byte size 32. -/
def vec3StructByteSize : Nat := 32

/-- Member byte offsets of the generated `Vec3` struct, per its member
declarations (`x_` 0, `y_` 4, `z_` 8, 4 padding bytes, `test1_` 16,
`test2_` 24, 1 padding byte, `test3_` 26, 2 trailing padding bytes). -/
def vec3StructOffsets : List Nat := [0, 4, 8, 16, 24, 26]

/-! ### Table slot assignment as emitted by `idl_gen_java.cpp` -/

/-- One schema table field as seen by the code generator: its name and
its `deprecated` flag. -/
structure JField where
  name : String
  deprecated : Bool
deriving Repr, DecidableEq

/-- Slot identifiers assigned to ALL declared table fields, deprecated
ones included: `GenStruct` numbers a field by its position in the
declaration list (`it - struct_def.fields.vec.begin()`). -/
def slotAssignment (fields : List JField) : List (String × Nat) :=
  fields.enum.map fun p => (p.2.name, p.1)

/-- The `add<Field>` builder methods actually emitted by `GenStruct`:
deprecated fields are skipped (`if (field.deprecated) continue;`), and
each emitted method passes the field's declaration-list position as its
slot. -/
def emittedAdders (fields : List JField) : List (String × Nat) :=
  fields.enum.filterMap fun p =>
    if p.2.deprecated then none else some (p.2.name, p.1)

/-- The vtable byte offset of slot `i` (`FieldIndexToOffset`):
`i * 2 + 4`, skipping the vtable's own two header fields. -/
def fieldIndexToOffset (i : Nat) : Nat := 2 * i + 4

/-- The declared field list of the Monster table, reconstructed from
the generated header: 25 slots (`EndTable(start_, 25)`), with vtable
offsets 4..52 and a gap at offset 12 - the deprecated field at
declaration index 4, which has no accessor and whose name therefore
does not appear in the generated output. -/
def monsterFields : List JField :=
  [⟨"pos", false⟩, ⟨"mana", false⟩, ⟨"hp", false⟩, ⟨"name", false⟩,
   ⟨"deprecated_slot_4", true⟩, ⟨"inventory", false⟩, ⟨"color", false⟩,
   ⟨"test_type", false⟩, ⟨"test", false⟩, ⟨"test4", false⟩,
   ⟨"testarrayofstring", false⟩, ⟨"testarrayoftables", false⟩,
   ⟨"enemy", false⟩, ⟨"testnestedflatbuffer", false⟩,
   ⟨"testempty", false⟩, ⟨"testbool", false⟩,
   ⟨"testhashs32_fnv1", false⟩, ⟨"testhashu32_fnv1", false⟩,
   ⟨"testhashs64_fnv1", false⟩, ⟨"testhashu64_fnv1", false⟩,
   ⟨"testhashs32_fnv1a", false⟩, ⟨"testhashu32_fnv1a", false⟩,
   ⟨"testhashs64_fnv1a", false⟩, ⟨"testhashu64_fnv1a", false⟩,
   ⟨"testarrayofbools", false⟩]

/-! ### Concrete builds used by the testable-property scenarios -/

/-- ASCII bytes of the string `"Orc"`. -/
def orcBytes : List Nat := [79, 114, 99]

/-- Builder state and string offset after `CreateString("Orc")` on a
fresh builder. -/
def orcStringState : Builder × Nat := createString initBuilder orcBytes

/-- The concrete Monster scenario of the spec: `name = "Orc"`,
`hp = 80`, `mana` unset (i.e. passed as its default 150), every other
argument at its default. -/
def orcMonsterResult : Except String (Builder × Nat) :=
  createMonster orcStringState.1 none 150 80 orcStringState.2
    0 8 0 0 0 0 0 0 0 0 0 0 0 0 0 0 0 0 0 0

/-- The finished buffer of the Orc scenario (with the `"MONS"` file
identifier), empty if construction failed. -/
def orcMonsterBuffer : List Nat :=
  match orcMonsterResult with
  | .ok p => (finishMonsterBuffer p.1 p.2).buf
  | .error _ => []

/-- The same Monster build but omitting `name` (offset 0 = never
created). -/
def noNameMonsterResult : Except String (Builder × Nat) :=
  createMonster orcStringState.1 none 150 80 0
    0 8 0 0 0 0 0 0 0 0 0 0 0 0 0 0 0 0 0 0

/-- A minimal one-field table build: start a table with one declared
slot (vtable byte offset 4), add a scalar of width `w` with value `v`
against declared default `d`, and end the table. -/
def buildScalarTable (w d v : Nat) : Builder × Nat :=
  let p := startTable initBuilder
  endTable (addElement p.1 4 w v d) p.2 1

/-- The same one-slot table with no field written at all. -/
def buildEmptyTable : Builder × Nat :=
  let p := startTable initBuilder
  endTable p.1 p.2 1

/-- Read a scalar field back from a just-built table (the table's
absolute position is its buffer length minus its buffer offset). -/
def tableRead (r : Builder × Nat) (vo w d : Nat) : Nat :=
  getField r.1.buf (r.1.buf.length - r.2) vo w d

/-! ### General lemmas about the byte-level primitives -/

theorem bytesLE_length (w v : Nat) : (bytesLE w v).length = w := by
  induction w generalizing v with
  | zero => rfl
  | succ w ih => simp [bytesLE, ih]

theorem readLE_cons (x : Nat) (l : List Nat) (i w : Nat) :
    readLE (x :: l) (i + 1) w = readLE l i w := by
  induction w generalizing i with
  | zero => rfl
  | succ w ih => simp [readLE, readByte, ih]

theorem readLE_append (xs ys : List Nat) (i w : Nat) :
    readLE (xs ++ ys) (xs.length + i) w = readLE ys i w := by
  induction xs with
  | nil => simp
  | cons x xs ih =>
    have h : x :: xs ++ ys = x :: (xs ++ ys) := rfl
    rw [h, List.length_cons, Nat.succ_add, readLE_cons, ih]

theorem readLE_bytesLE (w v : Nat) (rest : List Nat) :
    readLE (bytesLE w v ++ rest) 0 w = v % 256 ^ w := by
  induction w generalizing v with
  | zero => simp [readLE, Nat.mod_one]
  | succ w ih =>
    have h : bytesLE (w + 1) v ++ rest = v % 256 :: (bytesLE w (v / 256) ++ rest) := rfl
    rw [h]
    show readByte _ 0 + 256 * readLE _ 1 w = _
    rw [show (1 : Nat) = 0 + 1 from rfl, readLE_cons, ih]
    have hm : v % (256 * 256 ^ w) = v % 256 + 256 * (v / 256 % 256 ^ w) := Nat.mod_mul
    rw [pow_succ, mul_comm (256 ^ w) 256, hm]
    simp [readByte, Nat.mod_mod_of_dvd]

theorem paddingBytes_mod (len a : Nat) (ha : 0 < a) :
    (len + paddingBytes len a) % a = 0 := by
  unfold paddingBytes
  rcases Nat.eq_zero_or_pos (len % a) with h | h
  · simp [h, Nat.sub_zero, Nat.mod_self, Nat.add_zero]
  · have hlt : len % a < a := Nat.mod_lt _ ha
    have h1 : (a - len % a) % a = a - len % a := Nat.mod_eq_of_lt (by omega)
    rw [h1]
    have h2 : len + (a - len % a) = a * (len / a) + a := by
      have := Nat.div_add_mod len a
      omega
    rw [h2]
    simp [Nat.add_mul_mod_self_left, Nat.mul_add_mod]

theorem paddingBytes_zero (len a : Nat) (h : len % a = 0) :
    paddingBytes len a = 0 := by
  unfold paddingBytes
  simp [h]

theorem paddingBytes_lt (len a : Nat) (ha : 0 < a) : paddingBytes len a < a :=
  Nat.mod_lt _ ha

theorem roundUp_mod (n a : Nat) (ha : 0 < a) : roundUp n a % a = 0 :=
  paddingBytes_mod n a ha

theorem writeBytes_getD_outside (buf bs : List Nat) (i j : Nat)
    (hle : i + bs.length ≤ buf.length) (h : j < i ∨ i + bs.length ≤ j) :
    (writeBytes buf i bs).getD j 0 = buf.getD j 0 := by
  have hi : i ≤ buf.length := by omega
  have htk : (buf.take i).length = i := by simp [Nat.min_eq_left hi]
  unfold writeBytes
  rcases h with h | h
  · rw [List.getD_append _ _ _ _ (by rw [List.length_append, htk]; omega),
      List.getD_append _ _ _ _ (by rw [htk]; omega)]
    simp only [List.getD_eq_getElem?_getD, List.getElem?_take, if_pos h]
  · have hj : i + bs.length + (j - (i + bs.length)) = j := by omega
    rw [List.getD_append_right _ _ _ _ (by rw [List.length_append, htk]; omega),
      List.getD_eq_getElem?_getD, List.getD_eq_getElem?_getD, List.length_append,
      htk, List.getElem?_drop, hj]

/-- C3: for every table position and slot, a slot at or beyond the
vtable's declared length, or a stored slot entry of 0, makes the field
absent: scalar reads return the default, pointer reads return `none`
(no dereference) - absence is the default-value path, not an error. -/
theorem accessor_absence_default (buf : List Nat) (t vo w d : Nat)
    (h : readLE buf (vtableAt buf t) 2 ≤ vo ∨
         readLE buf (vtableAt buf t + vo) 2 = 0) :
    getField buf t vo w d = d ∧ getPointer buf t vo = none := by
  have hfo : fieldOffset buf t vo = 0 := by
    unfold fieldOffset
    rcases h with h | h
    · exact if_neg (Nat.not_lt.mpr h)
    · split
      · exact h
      · rfl
  exact ⟨by simp [getField, hfo], by simp [getPointer, hfo]⟩

theorem accessor_absence_default_witness :
    readLE [4, 0, 4, 0, 4, 0, 0, 0] (vtableAt [4, 0, 4, 0, 4, 0, 0, 0] 4) 2 ≤ 4 ∧
    getField [4, 0, 4, 0, 4, 0, 0, 0] 4 4 2 99 = 99 ∧
    getPointer [4, 0, 4, 0, 4, 0, 0, 0] 4 4 = none := by
  refine ⟨by decide, ?_, ?_⟩
  · exact (accessor_absence_default [4, 0, 4, 0, 4, 0, 0, 0] 4 4 2 99 (Or.inl (by decide))).1
  · exact (accessor_absence_default [4, 0, 4, 0, 4, 0, 0, 0] 4 4 2 99 (Or.inl (by decide))).2

/-- C4: `AddElement` writes the field's bytes and records a vtable slot
entry exactly when the supplied value differs from the declared
default; a value equal to the default writes nothing and records no
slot, so such a field never occupies buffer space. -/
theorem addElement_writes_iff_nondefault (st : Builder) (id w v d : Nat) :
    (v = d → addElement st id w v d = st) ∧
    (v ≠ d →
      (addElement st id w v d).buf = bytesLE w v ++ (alignTo st w).buf ∧
      (addElement st id w v d).fieldLocs =
        (id, w + (alignTo st w).buf.length) :: st.fieldLocs) := by
  constructor
  · intro h
    simp [addElement, h]
  · intro h
    refine ⟨by simp [addElement, h, trackField, pushElement, pushBytes], ?_⟩
    simp [addElement, h, trackField, pushElement, pushBytes, bytesLE_length,
      alignTo, fill, Nat.add_comm]

theorem addElement_writes_iff_nondefault_witness :
    addElement initBuilder 6 2 150 150 = initBuilder ∧
    (addElement initBuilder 8 2 80 100).buf =
      bytesLE 2 80 ++ (alignTo initBuilder 2).buf :=
  ⟨(addElement_writes_iff_nondefault initBuilder 6 2 150 150).1 rfl,
   ((addElement_writes_iff_nondefault initBuilder 8 2 80 100).2 (by decide)).1⟩

/-- C8: mutating a scalar table field succeeds (returns `true`) and
overwrites exactly the field's bytes in place when the field is present
in the instance's vtable, and fails (returns `false`) leaving the
buffer unchanged when the field is absent. -/
theorem setField_present_absent (buf : List Nat) (t vo w v : Nat) :
    (fieldOffset buf t vo = 0 → setField buf t vo w v = (false, buf)) ∧
    (fieldOffset buf t vo ≠ 0 →
      (setField buf t vo w v).1 = true ∧
      (setField buf t vo w v).2 =
        writeBytes buf (t + fieldOffset buf t vo) (bytesLE w v) ∧
      (t + fieldOffset buf t vo + w ≤ buf.length →
        ∀ j, j < t + fieldOffset buf t vo ∨ t + fieldOffset buf t vo + w ≤ j →
          (setField buf t vo w v).2.getD j 0 = buf.getD j 0)) := by
  constructor
  · intro h
    simp [setField, h]
  · intro h
    refine ⟨by simp [setField, h], by simp [setField, h], fun hle j hj => ?_⟩
    simp only [setField, if_neg h]
    exact writeBytes_getD_outside buf (bytesLE w v) _ j
      (by simpa [bytesLE_length] using hle) (by simpa [bytesLE_length] using hj)

theorem setField_present_absent_witness :
    Monster.mutateMana orcMonsterBuffer 20 99 = (false, orcMonsterBuffer) ∧
    (Monster.mutateHp orcMonsterBuffer 20 77).1 = true :=
  ⟨(setField_present_absent orcMonsterBuffer 20 6 2 99).1 (by decide),
   ((setField_present_absent orcMonsterBuffer 20 8 2 77).2 (by decide)).1⟩

/-- C9: `VerifyAny` is total over the union discriminant: `Any_NONE`
verifies trivially for every union object (the object is never
inspected), `Any_Monster` and `Any_TestSimpleTableWithEnum` verify the
pointed-to table, and every other discriminant value is rejected, so an
unknown union type tag never verifies. -/
theorem verifyAny_total {α : Type} (vM vS : α → Bool) (obj : α) (t : Nat) :
    verifyAny vM vS obj anyNONE = true ∧
    verifyAny vM vS obj anyMonster = vM obj ∧
    verifyAny vM vS obj anyTestSimpleTableWithEnum = vS obj ∧
    (anyTestSimpleTableWithEnum < t → verifyAny vM vS obj t = false) := by
  refine ⟨rfl, rfl, rfl, fun h => ?_⟩
  unfold verifyAny anyNONE anyMonster anyTestSimpleTableWithEnum at *
  rw [if_neg (by omega), if_neg (by omega), if_neg (by omega)]

theorem verifyAny_total_witness :
    verifyAny (fun _ : Nat => false) (fun _ : Nat => true) 0 anyNONE = true ∧
    verifyAny (fun _ : Nat => false) (fun _ : Nat => true) 0 13 = false :=
  ⟨(verifyAny_total (fun _ => false) (fun _ => true) 0 13).1,
   (verifyAny_total (fun _ => false) (fun _ => true) 0 13).2.2.2 (by decide)⟩

/-- C1: the concrete Monster scenario: building with `name = "Orc"`,
`hp = 80` and `mana` unset yields a buffer whose root table reads
`mana = 150` (the slot was never written: its vtable entry is absent),
`hp = 80` and `name = "Orc"`; building the same table while omitting
`name` fails at `Finish` on the `Required` check of slot offset 10. -/
theorem monster_orc_scenario :
    orcMonsterResult.isOk = true ∧
    Monster.mana orcMonsterBuffer (getRoot orcMonsterBuffer) = 150 ∧
    fieldOffset orcMonsterBuffer (getRoot orcMonsterBuffer) 6 = 0 ∧
    Monster.hp orcMonsterBuffer (getRoot orcMonsterBuffer) = 80 ∧
    Monster.name orcMonsterBuffer (getRoot orcMonsterBuffer) = some orcBytes ∧
    noNameMonsterResult.isOk = false := by
  refine ⟨rfl, ?_, rfl, ?_, rfl, rfl⟩ <;> decide

theorem layoutOffsetsFrom_aligned (fs : List FieldSpec) (h : ∀ f ∈ fs, 0 < f.align) :
    ∀ cur i, i < fs.length →
      (layoutOffsetsFrom cur fs).getD i 0 % (fs.getD i ⟨0, 1⟩).align = 0 := by
  induction fs with
  | nil => intro cur i hi; simp at hi
  | cons f rest ih =>
    intro cur i hi
    match i with
    | 0 =>
      simpa [layoutOffsetsFrom] using
        roundUp_mod cur f.align (h f (List.mem_cons_self f rest))
    | i + 1 =>
      simpa [layoutOffsetsFrom] using
        ih (fun g hg => h g (List.mem_cons_of_mem f hg)) _ i (by simpa using hi)

/-- C5 (amended): fixed-struct fields are laid out in declaration order
with padding so each field offset is a multiple of the field's
alignment; the struct's own alignment is the maximum field alignment
UNLESS the schema forces a larger one (Vec3 is forced to 16); the total
size is the laid-out extent rounded up to the struct's alignment; and
recomputing the layout for the generated structs' field lists
reproduces exactly the offsets, sizes and alignments hard-coded in the
generated header. -/
theorem fixed_struct_layout_amended :
    (∀ fs : List FieldSpec, (∀ f ∈ fs, 0 < f.align) →
      ∀ i, i < fs.length →
        (layoutOffsets fs).getD i 0 % (fs.getD i ⟨0, 1⟩).align = 0) ∧
    layoutOffsets vec3FieldSpecs = vec3StructOffsets ∧
    structAlignment 16 vec3FieldSpecs = vec3StructAlignment ∧
    structByteSize vec3StructAlignment vec3FieldSpecs = vec3StructByteSize ∧
    structByteSize (maxFieldAlign vec3FieldSpecs) vec3FieldSpecs = vec3StructByteSize ∧
    layoutOffsets testFieldSpecs = testStructOffsets ∧
    structAlignment 1 testFieldSpecs = testStructAlignment ∧
    structByteSize testStructAlignment testFieldSpecs = testStructByteSize := by
  refine ⟨fun fs h i hi => layoutOffsetsFrom_aligned fs h 0 i hi, ?_, ?_, ?_, ?_, ?_, ?_, ?_⟩
    <;> decide

theorem fixed_struct_layout_amended_witness :
    (layoutOffsets vec3FieldSpecs).getD 3 0 % (vec3FieldSpecs.getD 3 ⟨0, 1⟩).align = 0 :=
  fixed_struct_layout_amended.1 vec3FieldSpecs (by decide) 3 (by decide)

/-- C5 counterexample: the claim states a fixed struct's own alignment
equals its maximum field alignment, but the generated `Vec3` struct is
declared with alignment 16 (`MANUALLY_ALIGNED_STRUCT(16)`) while its
maximum field alignment is 8 (the `double` field). -/
theorem vec3_alignment_counterexample :
    maxFieldAlign vec3FieldSpecs ≠ vec3StructAlignment ∧
    maxFieldAlign vec3FieldSpecs = 8 ∧ vec3StructAlignment = 16 := by
  decide

/-- C6: every table field, deprecated ones included, receives its
declaration-list position as its slot identifier (so slots are
monotonically increasing in declaration order); the assignment ignores
the deprecated flags entirely (slots are never reclaimed or
renumbered); deprecated fields get no emitted builder method while the
emitted methods keep their original slots; concretely, Monster's
`name` is slot 3 (vtable offset 10) and `inventory` slot 5 (offset
14), with nothing emitted for the deprecated slot 4 (offset 12). -/
theorem slot_assignment_stable :
    (∀ fields : List JField,
      (slotAssignment fields).map Prod.snd = List.range fields.length) ∧
    (∀ (fields : List JField) (φ : JField → Bool),
      slotAssignment (fields.map fun f => ⟨f.name, φ f⟩) = slotAssignment fields) ∧
    (∀ (fields : List JField) (nm : String) (i : Nat),
      (nm, i) ∈ emittedAdders fields →
        (nm, i) ∈ slotAssignment fields ∧ fields[i]? = some ⟨nm, false⟩) ∧
    (("name", 3) ∈ emittedAdders monsterFields ∧
     ("inventory", 5) ∈ emittedAdders monsterFields ∧
     (∀ p ∈ emittedAdders monsterFields, p.2 ≠ 4) ∧
     fieldIndexToOffset 3 = 10 ∧ fieldIndexToOffset 5 = 14 ∧
     fieldIndexToOffset 4 = 12) := by
  refine ⟨?_, ?_, ?_, by decide⟩
  · intro fields
    have hc : (Prod.snd ∘ fun p : Nat × JField => (p.2.name, p.1)) = Prod.fst := by
      funext p
      rfl
    unfold slotAssignment
    rw [List.map_map, hc, List.enum_map_fst]
  · intro fields φ
    simp [slotAssignment, List.enum_map, List.map_map, Function.comp]
  · intro fields nm i h
    obtain ⟨⟨i', f⟩, hp, heq⟩ := List.mem_filterMap.mp h
    by_cases hd : f.deprecated
    · simp [hd] at heq
    · simp [hd] at heq
      obtain ⟨h1, h2⟩ := heq
      subst h1
      subst h2
      constructor
      · exact List.mem_map.mpr ⟨(i', f), hp, rfl⟩
      · have hg := List.mk_mem_enum_iff_getElem?.mp hp
        cases f
        simp_all

theorem slot_assignment_stable_witness :
    (slotAssignment monsterFields).map Prod.snd = List.range monsterFields.length ∧
    (("name", 3) ∈ slotAssignment monsterFields ∧
      monsterFields[3]? = some ⟨"name", false⟩) :=
  ⟨slot_assignment_stable.1 monsterFields,
   slot_assignment_stable.2.2.1 monsterFields "name" 3 (by decide)⟩

theorem finishBuffer_eq (st : Builder) (root : Nat) (l : List Nat) (hl : l.length = 4)
    (hroot : root ≤ st.buf.length)
    (h4 : (st.buf.length + 8 + paddingBytes (st.buf.length + 8) st.minalign) % 4 = 0) :
    (finishBuffer st root (some l)).buf =
      bytesLE 4 (st.buf.length + paddingBytes (st.buf.length + 8) st.minalign + 8 - root) ++
      (l ++ (List.replicate (paddingBytes (st.buf.length + 8) st.minalign) 0 ++ st.buf)) := by
  have hq : paddingBytes
      (l.length + (paddingBytes (st.buf.length + 8) st.minalign + st.buf.length)) 4 = 0 := by
    apply paddingBytes_zero
    rw [hl]
    omega
  simp only [finishBuffer, preAlign, pushBytes, alignTo, fill, List.length_append,
    List.length_replicate, hq, List.replicate_zero, List.nil_append]
  norm_num
  congr 2
  rw [hl]
  omega

/-- C7: a finished buffer stores a 4-byte root offset at position 0
which resolves (by adding the stored `uint32` to the position 0 of the
offset field itself) to the root object's absolute position, followed
immediately by the 4 ASCII identifier bytes; `BufferHasIdentifier`
succeeds exactly on the schema-declared identifier. -/
theorem finish_header (st : Builder) (root i0 i1 i2 i3 : Nat)
    (hm4 : 4 ∣ st.minalign) (hm0 : 0 < st.minalign)
    (hroot : root ≤ st.buf.length)
    (hlen : st.buf.length + st.minalign + 16 < 2 ^ 32)
    (h0 : i0 < 256) (h1 : i1 < 256) (h2 : i2 < 256) (h3 : i3 < 256) :
    getRoot (finishBuffer st root (some [i0, i1, i2, i3])).buf =
      (finishBuffer st root (some [i0, i1, i2, i3])).buf.length - root ∧
    readByte (finishBuffer st root (some [i0, i1, i2, i3])).buf 4 = i0 ∧
    readByte (finishBuffer st root (some [i0, i1, i2, i3])).buf 5 = i1 ∧
    readByte (finishBuffer st root (some [i0, i1, i2, i3])).buf 6 = i2 ∧
    readByte (finishBuffer st root (some [i0, i1, i2, i3])).buf 7 = i3 ∧
    (∀ j0 j1 j2 j3 : Nat, j0 < 256 → j1 < 256 → j2 < 256 → j3 < 256 →
      (bufferHasIdentifier (finishBuffer st root (some [i0, i1, i2, i3])).buf
          [j0, j1, j2, j3] = true ↔
        (j0 = i0 ∧ j1 = i1 ∧ j2 = i2 ∧ j3 = i3))) := by
  set p := paddingBytes (st.buf.length + 8) st.minalign with hpdef
  have hplt : p < st.minalign := paddingBytes_lt _ _ hm0
  have hmod : (st.buf.length + 8 + p) % st.minalign = 0 :=
    paddingBytes_mod (st.buf.length + 8) st.minalign hm0
  have hp4 : (st.buf.length + 8 + p) % 4 = 0 := by
    have hd := Nat.mod_mod_of_dvd (st.buf.length + 8 + p) hm4
    rw [hmod] at hd
    omega
  have hbuf := finishBuffer_eq st root [i0, i1, i2, i3] rfl hroot hp4
  rw [hbuf]
  have hpow : (256 : Nat) ^ 4 = 2 ^ 32 := by norm_num
  refine ⟨?_, ?_, ?_, ?_, ?_, ?_⟩
  · show readLE _ 0 4 + 0 = _
    rw [readLE_bytesLE, hpow]
    simp only [List.length_append, bytesLE_length, List.length_cons,
      List.length_replicate, List.length_nil]
    omega
  · show i0 % 256 = i0
    exact Nat.mod_eq_of_lt h0
  · show i1 % 256 = i1
    exact Nat.mod_eq_of_lt h1
  · show i2 % 256 = i2
    exact Nat.mod_eq_of_lt h2
  · show i3 % 256 = i3
    exact Nat.mod_eq_of_lt h3
  · intro j0 j1 j2 j3 hj0 hj1 hj2 hj3
    show ((((i0 % 256 == j0) && (i1 % 256 == j1)) && (i2 % 256 == j2)) && (i3 % 256 == j3)) = true ↔ _
    simp only [Bool.and_eq_true, beq_iff_eq, Nat.mod_eq_of_lt h0, Nat.mod_eq_of_lt h1,
      Nat.mod_eq_of_lt h2, Nat.mod_eq_of_lt h3]
    omega

theorem finish_header_witness :
    getRoot (finishBuffer ⟨[0, 0, 0, 0], 4, [], []⟩ 4 (some [77, 79, 78, 83])).buf =
      (finishBuffer ⟨[0, 0, 0, 0], 4, [], []⟩ 4 (some [77, 79, 78, 83])).buf.length - 4 ∧
    bufferHasIdentifier
      (finishBuffer ⟨[0, 0, 0, 0], 4, [], []⟩ 4 (some [77, 79, 78, 83])).buf
      [77, 79, 78, 83] = true := by
  have h := finish_header ⟨[0, 0, 0, 0], 4, [], []⟩ 4 77 79 78 83 (by decide) (by decide)
    (by decide) (by decide) (by decide) (by decide) (by decide) (by decide)
  exact ⟨h.1, (h.2.2.2.2.2 77 79 78 83 (by decide) (by decide) (by decide)
    (by decide)).mpr ⟨rfl, rfl, rfl, rfl⟩⟩

theorem readLE_concat_bytesLE (xs : List Nat) (w v : Nat) :
    readLE (xs ++ bytesLE w v) xs.length w = v % 256 ^ w := by
  have h := readLE_append xs (bytesLE w v) 0 w
  rw [Nat.add_zero] at h
  rw [h]
  have h2 := readLE_bytesLE w v []
  rwa [List.append_nil] at h2

theorem getField_at_tail (xs : List Nat) (w v d t vo : Nat) (hv : v < 256 ^ w)
    (hfo : fieldOffset (xs ++ bytesLE w v) t vo = xs.length - t)
    (ht : t ≤ xs.length) (hne : 0 < xs.length - t) :
    getField (xs ++ bytesLE w v) t vo w d = v := by
  unfold getField
  rw [hfo, if_neg (by omega), show t + (xs.length - t) = xs.length from by omega,
    readLE_concat_bytesLE]
  exact Nat.mod_eq_of_lt hv

theorem buildScalarTable_w1 (d v : Nat) (h : v ≠ d) :
    buildScalarTable 1 d v =
      (⟨[6, 0, 8, 0, 7, 0, 6, 0, 0, 0, 0, 0, 0] ++ bytesLE 1 v, 4, [], [14]⟩, 8) := by
  have hso : soffsetBytes 14 8 = [6, 0, 0, 0] := by decide
  simp [buildScalarTable, startTable, addElement, h, pushElement, pushBytes,
    alignTo, fill, trackField, initBuilder, endTable, slotEntries, trimTrailingZeros,
    vtableBytesAt, writeBytes, paddingBytes, bytesLE_length, hso,
    List.range_succ, List.dropWhile, bytesLE, Function.comp]

theorem buildScalarTable_w2 (d v : Nat) (h : v ≠ d) :
    buildScalarTable 2 d v =
      (⟨[6, 0, 8, 0, 6, 0, 6, 0, 0, 0, 0, 0] ++ bytesLE 2 v, 4, [], [14]⟩, 8) := by
  have hso : soffsetBytes 14 8 = [6, 0, 0, 0] := by decide
  simp [buildScalarTable, startTable, addElement, h, pushElement, pushBytes,
    alignTo, fill, trackField, initBuilder, endTable, slotEntries, trimTrailingZeros,
    vtableBytesAt, writeBytes, paddingBytes, bytesLE_length, hso,
    List.range_succ, List.dropWhile, bytesLE, Function.comp]

theorem buildScalarTable_w4 (d v : Nat) (h : v ≠ d) :
    buildScalarTable 4 d v =
      (⟨[6, 0, 8, 0, 4, 0, 6, 0, 0, 0] ++ bytesLE 4 v, 4, [], [14]⟩, 8) := by
  have hso : soffsetBytes 14 8 = [6, 0, 0, 0] := by decide
  simp [buildScalarTable, startTable, addElement, h, pushElement, pushBytes,
    alignTo, fill, trackField, initBuilder, endTable, slotEntries, trimTrailingZeros,
    vtableBytesAt, writeBytes, paddingBytes, bytesLE_length, hso,
    List.range_succ, List.dropWhile, bytesLE, Function.comp]

theorem buildScalarTable_w8 (d v : Nat) (h : v ≠ d) :
    buildScalarTable 8 d v =
      (⟨[6, 0, 12, 0, 4, 0, 6, 0, 0, 0] ++ bytesLE 8 v, 8, [], [18]⟩, 12) := by
  have hso : soffsetBytes 18 12 = [6, 0, 0, 0] := by decide
  simp [buildScalarTable, startTable, addElement, h, pushElement, pushBytes,
    alignTo, fill, trackField, initBuilder, endTable, slotEntries, trimTrailingZeros,
    vtableBytesAt, writeBytes, paddingBytes, bytesLE_length, hso,
    List.range_succ, List.dropWhile, bytesLE, Function.comp]

theorem getD_skip4 (c : List Nat) (hc : c.length = 4) (X : List Nat) (i : Nat) :
    (c ++ X).getD (4 + i) 0 = X.getD i 0 := by
  rw [List.getD_append_right _ _ _ _ (by omega)]
  congr 1
  omega

theorem map_range_getD (s rest : List Nat) (h : ∀ x ∈ s, x < 256) :
    (List.range s.length).map (fun i => (s ++ rest).getD i 0 % 256) = s := by
  induction s with
  | nil => simp
  | cons a s ih =>
    have ha : a < 256 := h a (List.mem_cons_self a s)
    have ih2 := ih (fun x hx => h x (List.mem_cons_of_mem a hx))
    simp only [List.cons_append, List.length_cons, List.range_succ_eq_map,
      List.map_cons, List.getD_cons_zero, List.map_map]
    rw [Nat.mod_eq_of_lt ha]
    congr 1

theorem createString_init (s : List Nat) (h : ∀ x ∈ s, x < 256)
    (hl : s.length < 2 ^ 32) :
    readString (createString initBuilder s).1.buf
      ((createString initBuilder s).1.buf.length - (createString initBuilder s).2) = s := by
  have hpm : (s.length + 1 + paddingBytes (s.length + 1) 4) % 4 = 0 :=
    paddingBytes_mod (s.length + 1) 4 (by norm_num)
  have hpos : (createString initBuilder s).1.buf.length - (createString initBuilder s).2 = 0 := by
    simp [createString]
  have hq : paddingBytes (s.length + 1 + paddingBytes (s.length + 1) 4) 4 = 0 :=
    paddingBytes_zero _ _ hpm
  have hbuf : (createString initBuilder s).1.buf =
      bytesLE 4 s.length ++
        ((s ++ [0]) ++ (List.replicate (paddingBytes (s.length + 1) 4) 0 ++ [])) := by
    simp only [createString, initBuilder, preAlign, pushBytes, pushElement, alignTo,
      fill, List.length_append, List.length_replicate, List.length_nil,
      List.length_cons, Nat.zero_add, Nat.add_zero, hq, List.replicate_zero,
      List.nil_append]
  rw [hpos, hbuf]
  unfold readString
  rw [readLE_bytesLE]
  have hn : s.length % 256 ^ 4 = s.length := Nat.mod_eq_of_lt (by norm_num; omega)
  rw [hn]
  have hstep : ∀ i : Nat,
      readByte (bytesLE 4 s.length ++
        ((s ++ [0]) ++ (List.replicate (paddingBytes (s.length + 1) 4) 0 ++ []))) (0 + 4 + i) =
      ((s ++ ([0] ++ (List.replicate (paddingBytes (s.length + 1) 4) 0 ++ []))).getD i 0) % 256 := by
    intro i
    unfold readByte
    rw [Nat.zero_add, getD_skip4 _ (bytesLE_length 4 s.length), List.append_assoc]
  calc (List.range s.length).map (fun i =>
          readByte (bytesLE 4 s.length ++
            ((s ++ [0]) ++ (List.replicate (paddingBytes (s.length + 1) 4) 0 ++ []))) (0 + 4 + i))
      = (List.range s.length).map (fun i =>
          (s ++ ([0] ++ (List.replicate (paddingBytes (s.length + 1) 4) 0 ++ []))).getD i 0 % 256) := by
        apply List.map_congr_left
        intro i _
        exact hstep i
    _ = s := map_range_getD s _ h

theorem addOffset_resolves (st : Builder) (id off : Nat) (h0 : 0 < off)
    (hoff : off ≤ st.buf.length) (hlen : st.buf.length + 8 < 2 ^ 32) :
    readLE (addOffset st id off).buf 0 4 + 0 =
      (addOffset st id off).buf.length - off := by
  have hne : ¬ off = 0 := by omega
  have hq : paddingBytes st.buf.length 4 < 4 := paddingBytes_lt _ 4 (by norm_num)
  simp only [addOffset, if_neg hne, trackField, pushBytes, alignTo, fill,
    List.length_append, List.length_replicate, bytesLE_length]
  rw [readLE_bytesLE]
  have hpow : (256 : Nat) ^ 4 = 2 ^ 32 := by norm_num
  rw [hpow]
  omega

theorem tableRead_w1 (d v : Nat) (hv : v < 2 ^ 8) (h : v ≠ d) :
    tableRead (buildScalarTable 1 d v) 4 1 d = v := by
  norm_num at hv
  rw [buildScalarTable_w1 d v h]
  exact getField_at_tail [6, 0, 8, 0, 7, 0, 6, 0, 0, 0, 0, 0, 0] 1 v d 6 4
    (by norm_num; omega) rfl (by norm_num) (by norm_num)

theorem tableRead_w2 (d v : Nat) (hv : v < 2 ^ 16) (h : v ≠ d) :
    tableRead (buildScalarTable 2 d v) 4 2 d = v := by
  norm_num at hv
  rw [buildScalarTable_w2 d v h]
  exact getField_at_tail [6, 0, 8, 0, 6, 0, 6, 0, 0, 0, 0, 0] 2 v d 6 4
    (by norm_num; omega) rfl (by norm_num) (by norm_num)

theorem tableRead_w4 (d v : Nat) (hv : v < 2 ^ 32) (h : v ≠ d) :
    tableRead (buildScalarTable 4 d v) 4 4 d = v := by
  norm_num at hv
  rw [buildScalarTable_w4 d v h]
  exact getField_at_tail [6, 0, 8, 0, 4, 0, 6, 0, 0, 0] 4 v d 6 4
    (by norm_num; omega) rfl (by norm_num) (by norm_num)

theorem tableRead_w8 (d v : Nat) (hv : v < 2 ^ 64) (h : v ≠ d) :
    tableRead (buildScalarTable 8 d v) 4 8 d = v := by
  norm_num at hv
  rw [buildScalarTable_w8 d v h]
  exact getField_at_tail [6, 0, 12, 0, 4, 0, 6, 0, 0, 0] 8 v d 6 4
    (by norm_num; omega) rfl (by norm_num) (by norm_num)

/-- C2: round-trip of written values: for each supported scalar width
(1, 2, 4, 8 bytes) and every in-range non-default value, reading the
field through the accessor after building a one-field table returns
exactly the written value; building with the default value yields a
buffer identical to one where the field was never touched (the field
occupies zero bytes and its vtable slot is absent, trimmed from the
vtable) while the accessor still returns the default; string contents
round-trip through `CreateString`; and a written offset field resolves
(position of the field plus stored `uint32`) to the referenced
object's absolute position. -/
theorem roundtrip_all_types :
    (∀ d v : Nat, v < 2 ^ 8 → v ≠ d → tableRead (buildScalarTable 1 d v) 4 1 d = v) ∧
    (∀ d v : Nat, v < 2 ^ 16 → v ≠ d → tableRead (buildScalarTable 2 d v) 4 2 d = v) ∧
    (∀ d v : Nat, v < 2 ^ 32 → v ≠ d → tableRead (buildScalarTable 4 d v) 4 4 d = v) ∧
    (∀ d v : Nat, v < 2 ^ 64 → v ≠ d → tableRead (buildScalarTable 8 d v) 4 8 d = v) ∧
    (∀ w d : Nat, buildScalarTable w d d = buildEmptyTable ∧
      tableRead (buildScalarTable w d d) 4 w d = d ∧
      fieldOffset buildEmptyTable.1.buf
        (buildEmptyTable.1.buf.length - buildEmptyTable.2) 4 = 0) ∧
    (∀ s : List Nat, (∀ x ∈ s, x < 256) → s.length < 2 ^ 32 →
      readString (createString initBuilder s).1.buf
        ((createString initBuilder s).1.buf.length -
          (createString initBuilder s).2) = s) ∧
    (∀ (st : Builder) (id off : Nat), 0 < off → off ≤ st.buf.length →
      st.buf.length + 8 < 2 ^ 32 →
      readLE (addOffset st id off).buf 0 4 + 0 =
        (addOffset st id off).buf.length - off) := by
  refine ⟨tableRead_w1, tableRead_w2, tableRead_w4, tableRead_w8, ?_,
    createString_init, addOffset_resolves⟩
  · intro w d
    have h : buildScalarTable w d d = buildEmptyTable := by
      simp [buildScalarTable, buildEmptyTable, addElement]
    exact ⟨h, by rw [h]; exact rfl, rfl⟩

theorem roundtrip_all_types_witness :
    tableRead (buildScalarTable 2 100 80) 4 2 100 = 80 ∧
    buildScalarTable 2 150 150 = buildEmptyTable ∧
    readString (createString initBuilder orcBytes).1.buf
      ((createString initBuilder orcBytes).1.buf.length -
        (createString initBuilder orcBytes).2) = orcBytes :=
  ⟨roundtrip_all_types.2.1 100 80 (by norm_num) (by norm_num),
   (roundtrip_all_types.2.2.2.2.1 2 150).1,
   roundtrip_all_types.2.2.2.2.2.1 orcBytes (by decide) (by decide)⟩

theorem flatten_bytesLE_length (w : Nat) (data : List Nat) :
    ((data.map (bytesLE w)).flatten).length = data.length * w := by
  induction data with
  | nil => simp
  | cons v tl ih =>
    simp [ih, bytesLE_length]
    ring

theorem readLE_flatten_elem (w : Nat) (data : List Nat) :
    ∀ (i : Nat) (rest : List Nat), (∀ x ∈ data, x < 256 ^ w) → i < data.length →
      readLE ((data.map (bytesLE w)).flatten ++ rest) (i * w) w = data.getD i 0 := by
  induction data with
  | nil =>
    intro i rest _ hi
    simp at hi
  | cons v tl ih =>
    intro i rest hd hi
    match i with
    | 0 =>
      rw [List.map_cons, List.flatten_cons, List.append_assoc, Nat.zero_mul,
        readLE_bytesLE, List.getD_cons_zero]
      exact Nat.mod_eq_of_lt (hd v (List.mem_cons_self v tl))
    | i + 1 =>
      have hi2 : i < tl.length := by
        simp at hi
        omega
      rw [List.map_cons, List.flatten_cons, List.append_assoc, List.getD_cons_succ]
      have hw : (i + 1) * w = (bytesLE w v).length + i * w := by
        rw [bytesLE_length]
        ring
      rw [hw, readLE_append]
      exact ih i rest (fun x hx => hd x (List.mem_cons_of_mem v hx)) hi2

theorem pushElement_buf (st : Builder) (w v : Nat) (h : st.buf.length % w = 0) :
    (pushElement st w v).buf = bytesLE w v ++ st.buf := by
  simp only [pushElement, pushBytes, alignTo, fill, paddingBytes_zero _ _ h,
    List.replicate_zero, List.nil_append]

theorem pushLoop_buf (w : Nat) (data : List Nat) (st0 : Builder)
    (h0 : st0.buf.length % w = 0) :
    (data.reverse.foldl (fun s v => pushElement s w v) st0).buf =
      (data.map (bytesLE w)).flatten ++ st0.buf := by
  rw [List.foldl_reverse]
  induction data with
  | nil => rfl
  | cons v tl ih =>
    have hX : (List.foldr (fun x y => pushElement y w x) st0 tl).buf.length % w = 0 := by
      rw [ih, List.length_append, flatten_bytesLE_length, Nat.mul_comm,
        Nat.mul_add_mod, h0]
    rw [List.foldr_cons, pushElement_buf _ w v hX, ih, List.map_cons,
      List.flatten_cons, List.append_assoc]

theorem createScalarVector_buf (st : Builder) (w : Nat) (data : List Nat)
    (h0 : (startVector st w data.length w).buf.length % w = 0)
    (h4 : (data.length * w + (startVector st w data.length w).buf.length) % 4 = 0) :
    (createScalarVector st w w data).1.buf =
      bytesLE 4 data.length ++
        ((data.map (bytesLE w)).flatten ++ (startVector st w data.length w).buf) ∧
    (createScalarVector st w w data).2 =
      (createScalarVector st w w data).1.buf.length := by
  have hloop := pushLoop_buf w data (startVector st w data.length w) h0
  have hX : (data.reverse.foldl (fun s v => pushElement s w v)
      (startVector st w data.length w)).buf.length % 4 = 0 := by
    rw [hloop, List.length_append, flatten_bytesLE_length]
    exact h4
  refine ⟨?_, rfl⟩
  show (pushElement (data.reverse.foldl (fun s v => pushElement s w v)
    (startVector st w data.length w)) 4 data.length).buf = _
  rw [pushElement_buf _ 4 data.length hX, hloop]

theorem startVector_aligned (st : Builder) (w n : Nat)
    (hw : w = 1 ∨ w = 2 ∨ w = 4 ∨ w = 8) :
    (startVector st w n w).buf.length % w = 0 ∧
    (n * w + (startVector st w n w).buf.length) % 4 = 0 := by
  have hA := paddingBytes_mod (st.buf.length + n * w) 4 (by norm_num)
  have hw0 : 0 < w := by rcases hw with rfl | rfl | rfl | rfl <;> norm_num
  have hB := paddingBytes_mod
    (paddingBytes (st.buf.length + n * w) 4 + st.buf.length + n * w) w hw0
  have hBlt := paddingBytes_lt
    (paddingBytes (st.buf.length + n * w) 4 + st.buf.length + n * w) w hw0
  simp only [startVector, preAlign, fill, List.length_append, List.length_replicate]
  rcases hw with rfl | rfl | rfl | rfl <;> constructor <;> omega

/-- C10: the generated `create<Field>Vector` helper pushes the input
array's elements from the last index down to index 0 into the
downward-growing buffer, so the serialized vector preserves element
order: its length prefix is the array length and element `i` of the
serialized vector equals `data[i]` for every index. -/
theorem createVector_preserves_order (st : Builder) (w : Nat)
    (hw : w = 1 ∨ w = 2 ∨ w = 4 ∨ w = 8) (data : List Nat)
    (hd : ∀ x ∈ data, x < 256 ^ w) (hn : data.length < 2 ^ 32) :
    vectorLen (createScalarVector st w w data).1.buf
      ((createScalarVector st w w data).1.buf.length -
        (createScalarVector st w w data).2) = data.length ∧
    (∀ i, i < data.length →
      vectorElem (createScalarVector st w w data).1.buf
        ((createScalarVector st w w data).1.buf.length -
          (createScalarVector st w w data).2) w i = data.getD i 0) := by
  have hkey := startVector_aligned st w data.length hw
  obtain ⟨hb, h2⟩ := createScalarVector_buf st w data hkey.1 hkey.2
  have hpos : (createScalarVector st w w data).1.buf.length -
      (createScalarVector st w w data).2 = 0 := by
    rw [h2]
    omega
  rw [hpos, hb]
  constructor
  · unfold vectorLen
    rw [readLE_bytesLE]
    exact Nat.mod_eq_of_lt (by norm_num; omega)
  · intro i hi
    unfold vectorElem
    have h4i : 0 + 4 + i * w = (bytesLE 4 data.length).length + i * w := by
      rw [bytesLE_length]
    rw [h4i, readLE_append]
    exact readLE_flatten_elem w data i _ hd hi

theorem createVector_preserves_order_witness :
    vectorLen (createScalarVector initBuilder 2 2 [300, 1, 7]).1.buf
      ((createScalarVector initBuilder 2 2 [300, 1, 7]).1.buf.length -
        (createScalarVector initBuilder 2 2 [300, 1, 7]).2) = 3 ∧
    vectorElem (createScalarVector initBuilder 2 2 [300, 1, 7]).1.buf
      ((createScalarVector initBuilder 2 2 [300, 1, 7]).1.buf.length -
        (createScalarVector initBuilder 2 2 [300, 1, 7]).2) 2 0 = 300 :=
  ⟨(createVector_preserves_order initBuilder 2 (Or.inr (Or.inl rfl)) [300, 1, 7]
      (by decide) (by decide)).1,
   (createVector_preserves_order initBuilder 2 (Or.inr (Or.inl rfl)) [300, 1, 7]
      (by decide) (by decide)).2 0 (by decide)⟩
